import Mathlib

/-!
Shallow embedding of the driver script run.py and proofs about it.

The script is a sequential job runner: it parses a list of config file
identifiers, and for each one (inside a try block) resolves a job via
get_job, runs it, cleans it up, increments a completed counter, and — when
the SAVE_CHECKPOINT_BUCKET_NAME environment variable is set — uploads the
checkpoint directory to S3 and clears the CLI target folder.  The except
handler increments a failed counter and, unless the recover flag is set,
prints the end message and re-raises.  After the loop, an optional shutdown
step sleeps and issues a pod stop command when a pod id is present in the
environment.

The embedding models each external effect (get_job, job.run, job.cleanup,
the S3 upload call, the folder clearing call) by an oracle saying whether
that call raises, and records the observable trace fields the claims talk
about: the two counters, which configs were attempted, the arguments of the
clear calls, the directory named by the clearing log message, whether the
end message was printed and with which counters, and whether an exception
propagated out of the loop.
-/

namespace RunPy

/-- Whether the first character of the string is the given character; used
to model the os.path absolute test and the glob hidden-name exclusion. -/
def headIs (c : Char) (s : String) : Bool :=
  match s.data with
  | [] => false
  | a :: _ => a = c

/-- Whether the last character of the string is the given character. -/
def lastIs (c : Char) (s : String) : Bool :=
  match s.data.getLast? with
  | none => false
  | some a => a = c

/-- Whether the first string is a suffix of the second, by characters. -/
def strEnds (suffix s : String) : Bool :=
  suffix.data.isSuffixOf s.data

/-- Python os.path.join for two POSIX components, as used by run.py:
if the second component is absolute it wins; otherwise a separator is
inserted unless the first component is empty or already ends in one. -/
def osPathJoin (a b : String) : String :=
  if headIs '/' b then b
  else if a = "" || lastIs '/' a then a ++ b
  else a ++ "/" ++ b

/-- Per-config oracle: which of the calls made for this config raise, and
the fields of the resolved job's config mapping that the driver reads
(training folder of the first process entry, and the job name). -/
structure JobSpec where
  getJobOk : Bool
  runOk : Bool
  cleanupOk : Bool
  uploadOk : Bool
  clearOk : Bool
  trainingFolder : String
  jobName : String
  deriving DecidableEq, Repr

/-- The checkpoint directory the driver computes for a job:
os.path.join(output_folder, job.config name). -/
def checkpointDir (s : JobSpec) : String :=
  osPathJoin s.trainingFolder s.jobName

/-- The job phase of the try body (get_job, job.run, job.cleanup) succeeds;
only then is the completed counter incremented. -/
def jobPhaseOk (s : JobSpec) : Bool :=
  s.getJobOk && s.runOk && s.cleanupOk

/-- Observable outcome of one iteration's try body. -/
structure TryResult where
  /-- How much the completed counter was incremented before any raise. -/
  completedInc : Nat
  /-- Checkpoint directories named by a Clearing-target-folder log line. -/
  clearLogs : List String
  /-- Arguments actually passed to clear_target_folder. -/
  clearCalls : List String
  /-- The try body ran to completion without raising. -/
  ok : Bool
  deriving DecidableEq, Repr

/-- The try body of one loop iteration of main, lines 144 to 159 of run.py:
run the job phase; on success increment completed; then, when the bucket
environment variable is set, upload the checkpoint directory and clear the
target folder, logging the checkpoint directory but clearing the CLI
target folder.  Any raise aborts the body at that point. -/
def tryBody (bucket : Option String) (targetFolder : String) (s : JobSpec) :
    TryResult :=
  if jobPhaseOk s then
    match bucket with
    | none => { completedInc := 1, clearLogs := [], clearCalls := [], ok := true }
    | some _ =>
      if s.uploadOk then
        { completedInc := 1, clearLogs := [checkpointDir s],
          clearCalls := [targetFolder], ok := s.clearOk }
      else
        { completedInc := 1, clearLogs := [], clearCalls := [], ok := false }
  else
    { completedInc := 0, clearLogs := [], clearCalls := [], ok := false }

/-- Observable result of the whole loop of main over the config list. -/
structure RunResult where
  jobsCompleted : Nat
  jobsFailed : Nat
  /-- Configs whose loop iteration was entered, in order. -/
  attempted : List String
  /-- Arguments of all clear_target_folder calls, in order. -/
  clearCalls : List String
  /-- Checkpoint directories named by Clearing-target-folder log lines. -/
  clearLogs : List String
  /-- Arguments of the print_end_message call, when one was made. -/
  summary : Option (Nat × Nat)
  /-- An exception propagated out of the loop (re-raised by the handler). -/
  raisedError : Bool
  deriving DecidableEq, Repr

/-- The for loop of main, lines 142 to 166 of run.py, with the two counter
accumulators.  On an exception in the try body the handler increments the
failed counter; without the recover flag it prints the end message with the
current counters and re-raises, otherwise it proceeds to the next config. -/
def runJobs (recover : Bool) (bucket : Option String) (targetFolder : String)
    (specOf : String → JobSpec) :
    List String → Nat → Nat → RunResult
  | [], completed, failed =>
    { jobsCompleted := completed, jobsFailed := failed, attempted := [],
      clearCalls := [], clearLogs := [], summary := none, raisedError := false }
  | c :: rest, completed, failed =>
    let r := tryBody bucket targetFolder (specOf c)
    if r.ok then
      let tail := runJobs recover bucket targetFolder specOf rest
        (completed + r.completedInc) failed
      { tail with attempted := c :: tail.attempted,
                  clearCalls := r.clearCalls ++ tail.clearCalls,
                  clearLogs := r.clearLogs ++ tail.clearLogs }
    else if recover then
      let tail := runJobs recover bucket targetFolder specOf rest
        (completed + r.completedInc) (failed + 1)
      { tail with attempted := c :: tail.attempted,
                  clearCalls := r.clearCalls ++ tail.clearCalls,
                  clearLogs := r.clearLogs ++ tail.clearLogs }
    else
      { jobsCompleted := completed + r.completedInc,
        jobsFailed := failed + 1,
        attempted := [c],
        clearCalls := r.clearCalls,
        clearLogs := r.clearLogs,
        summary := some (completed + r.completedInc, failed + 1),
        raisedError := true }

/-- The default of the target-folder CLI argument in run.py. -/
def defaultTargetFolder : String := "/workspace"

/-!
Embedding of upload_to_s3 (run.py lines 58 to 71).  A folder is modelled
by the list of its direct entry names.  The call
glob.glob(os.path.join(folder_path, "*" + pattern)) returns, for each entry
name matching the glob pattern star-followed-by-pattern, the folder-joined
path; os.path.basename of such a path is the entry name again (entry names
contain no separator).  The pattern is taken as a literal suffix, matching
its default value .safetensors, which contains no glob metacharacter.
-/

/-- One character of the os.path.basename scan: a separator restarts the
accumulated final component, any other character extends it. -/
def basenameStep (acc : List Char) (c : Char) : List Char :=
  if c = '/' then [] else acc ++ [c]

/-- Python os.path.basename on a POSIX path: everything after the last
separator, computed by scanning the characters and restarting at each
separator. -/
def osPathBasename (p : String) : String :=
  String.mk (p.data.foldl basenameStep [])

/-- Python glob matching specialised to patterns of the form a star followed
by a literal suffix: glob never matches hidden entries (names starting with
a dot) because the pattern does not start with a dot, and the star matches
any, possibly empty, sequence of characters of a single path component, so
a non-hidden name matches exactly when it ends with the suffix. -/
def globStarSuffix (suffix name : String) : Bool :=
  !headIs '.' name && strEnds suffix name

/-- One file upload issued to the S3 client. -/
structure Upload where
  localPath : String
  bucket : String
  key : String
  deriving DecidableEq, Repr

/-- upload_to_s3: glob the folder for entries matching star-plus-pattern and
upload each resulting file to the bucket under the key
os.path.join(USER_ID/JOB_ID/lora_checkpoints, basename of the file). -/
def upload_to_s3 (userId jobId : String) (folderPath bucketName : String)
    (pattern : String) (entries : List String) : List Upload :=
  let files := (entries.filter (fun n => globStarSuffix pattern n)).map
    (fun n => osPathJoin folderPath n)
  let objectPath := userId ++ "/" ++ jobId ++ "/lora_checkpoints"
  files.map (fun file =>
    { localPath := file, bucket := bucketName,
      key := osPathJoin objectPath (osPathBasename file) })

/-!
Embedding of clear_target_folder (run.py lines 73 to 83).  A folder is a
list of entries, each a name with a kind; os.listdir returns the entry
list, and for each listed name the code removes the file (os.remove) or the
directory tree (shutil.rmtree); either way the direct entry of that name
disappears from the folder, and the folder itself is never removed.
-/

/-- Kind of a direct directory entry. -/
inductive EntryKind where
  | file : EntryKind
  | dir : EntryKind
  deriving DecidableEq, Repr

/-- A direct entry of a folder: a name and whether it is a file or a
subdirectory. -/
structure Entry where
  name : String
  kind : EntryKind
  deriving DecidableEq, Repr

/-- Remove the first entry with the given name, as os.remove or
shutil.rmtree on that path does. -/
def removeName (n : String) : List Entry → List Entry
  | [] => []
  | e :: es => if e.name = n then es else e :: removeName n es

/-- The loop body of clear_target_folder over the os.listdir snapshot:
for each listed entry, a file is removed with os.remove and a directory
with shutil.rmtree; both delete the direct entry of that name from the
remaining folder contents. -/
def clearLoop : List Entry → List Entry → List Entry
  | remaining, [] => remaining
  | remaining, part :: parts =>
    match part.kind with
    | EntryKind.file => clearLoop (removeName part.name remaining) parts
    | EntryKind.dir => clearLoop (removeName part.name remaining) parts

/-- clear_target_folder on an existing folder with the given entries:
iterate over the os.listdir snapshot and delete each entry, returning the
remaining contents of the folder. -/
def clear_target_folder (es : List Entry) : List Entry :=
  clearLoop es es

/-- The folder after clear_target_folder, as a folder state where some
stands for an existing folder with the given contents: the code deletes
only direct entries and never the folder itself, so the folder survives
with whatever contents remain. -/
def clearFolderState (es : List Entry) : Option (List Entry) :=
  some (clear_target_folder es)

/-!
Embedding of the shutdown step (run.py lines 168 to 185): when the shutdown
flag is set, read RUNPOD_POD_ID from the environment; when present, sleep
for the configured time and issue the runpodctl stop command; when absent,
print a warning and issue nothing.  The keyboard-interrupt cancellation
path is an external signal and is not modelled.
-/

/-- Observable outcome of the shutdown step. -/
structure ShutdownResult where
  /-- External commands issued via subprocess, in order. -/
  commands : List String
  /-- The could-not-get-pod-id warning was printed. -/
  warned : Bool
  /-- Seconds slept before stopping, when a sleep happened. -/
  slept : Option Nat
  deriving DecidableEq, Repr

/-- The shutdown step of main. -/
def shutdownStep (shutdown : Bool) (shutdownTime : Nat)
    (podId : Option String) : ShutdownResult :=
  if shutdown then
    match podId with
    | some pid =>
      { commands := ["runpodctl stop pod " ++ pid], warned := false,
        slept := some shutdownTime }
    | none => { commands := [], warned := true, slept := none }
  else
    { commands := [], warned := false, slept := none }

/-! Concrete job oracles used by witnesses and counterexamples. -/

/-- A job for which every call succeeds. -/
def demoJob : JobSpec :=
  { getJobOk := true, runOk := true, cleanupOk := true, uploadOk := true,
    clearOk := true, trainingFolder := "/out", jobName := "lora" }

/-- A job whose job phase succeeds but whose S3 upload raises. -/
def demoUploadFail : JobSpec :=
  { demoJob with uploadOk := false }

/-- A job whose resolution via get_job raises. -/
def demoGetJobFail : JobSpec :=
  { demoJob with getJobOk := false }

/-! Basic lemmas about the try body. -/

lemma tryBody_completedInc (b : Option String) (tf : String) (s : JobSpec) :
    (tryBody b tf s).completedInc = if jobPhaseOk s = true then 1 else 0 := by
  cases hj : jobPhaseOk s <;> cases b <;>
    simp [tryBody, hj, apply_ite TryResult.completedInc]

lemma tryBody_ok_jobPhase (b : Option String) (tf : String) (s : JobSpec)
    (h : (tryBody b tf s).ok = true) : jobPhaseOk s = true := by
  by_contra hj
  simp only [Bool.not_eq_true] at hj
  simp [tryBody, hj] at h

lemma tryBody_ok_completedInc (b : Option String) (tf : String) (s : JobSpec)
    (h : (tryBody b tf s).ok = true) : (tryBody b tf s).completedInc = 1 := by
  rw [tryBody_completedInc, if_pos (tryBody_ok_jobPhase b tf s h)]

lemma jobPhase_not_ok (b : Option String) (tf : String) (s : JobSpec)
    (h : jobPhaseOk s = false) : (tryBody b tf s).ok = false := by
  simp [tryBody, h]

/-! Lemmas about the loop: runs in which every try body succeeds. -/

lemma runJobs_all_ok (r : Bool) (b : Option String) (tf : String)
    (f : String → JobSpec) :
    ∀ (cs : List String) (comp fail : Nat),
    (∀ c ∈ cs, (tryBody b tf (f c)).ok = true) →
    (runJobs r b tf f cs comp fail).jobsCompleted = comp + cs.length ∧
    (runJobs r b tf f cs comp fail).jobsFailed = fail ∧
    (runJobs r b tf f cs comp fail).attempted = cs ∧
    (runJobs r b tf f cs comp fail).summary = none ∧
    (runJobs r b tf f cs comp fail).raisedError = false := by
  intro cs
  induction cs with
  | nil => intro comp fail _; simp [runJobs]
  | cons c rest ih =>
    intro comp fail h
    have hc : (tryBody b tf (f c)).ok = true := h c (by simp)
    have hinc := tryBody_ok_completedInc b tf (f c) hc
    have hrest := ih (comp + 1) fail (fun x hx => h x (by simp [hx]))
    simp only [runJobs, hc, if_pos, hinc]
    refine ⟨?_, hrest.2.1, ?_, hrest.2.2.2.1, hrest.2.2.2.2⟩
    · rw [hrest.1]
      simp only [List.length_cons]
      omega
    · simp [hrest.2.2.1]

/-! Lemmas about the loop in recovery mode. -/

lemma runJobs_recover (b : Option String) (tf : String) (f : String → JobSpec) :
    ∀ (cs : List String) (comp fail : Nat),
    (runJobs true b tf f cs comp fail).attempted = cs ∧
    (runJobs true b tf f cs comp fail).raisedError = false ∧
    (runJobs true b tf f cs comp fail).summary = none ∧
    (runJobs true b tf f cs comp fail).jobsCompleted =
      comp + (cs.filter (fun c => jobPhaseOk (f c))).length ∧
    (runJobs true b tf f cs comp fail).jobsFailed =
      fail + (cs.filter (fun c => !(tryBody b tf (f c)).ok)).length := by
  intro cs
  induction cs with
  | nil => intro comp fail; simp [runJobs]
  | cons c rest ih =>
    intro comp fail
    cases hok : (tryBody b tf (f c)).ok with
    | true =>
      have hj := tryBody_ok_jobPhase b tf (f c) hok
      have hinc := tryBody_ok_completedInc b tf (f c) hok
      have hrest := ih (comp + 1) fail
      simp only [runJobs, hok, if_pos, hinc]
      refine ⟨by simp [hrest.1], hrest.2.1, hrest.2.2.1, ?_, ?_⟩
      · rw [hrest.2.2.2.1]
        simp [List.filter_cons, hj]
        omega
      · rw [hrest.2.2.2.2]
        simp [List.filter_cons, hok]
    | false =>
      have hinc := tryBody_completedInc b tf (f c)
      have hrest := ih (comp + (tryBody b tf (f c)).completedInc) (fail + 1)
      simp only [runJobs, hok, Bool.false_eq_true, if_false, if_pos]
      refine ⟨by simp [hrest.1], hrest.2.1, hrest.2.2.1, ?_, ?_⟩
      · rw [hrest.2.2.2.1, hinc]
        simp only [List.filter_cons]
        cases hj : jobPhaseOk (f c)
        · simp [hj]
        · simp [hj]
          omega
      · rw [hrest.2.2.2.2]
        simp [List.filter_cons, hok]
        omega

/-! Lemmas about the loop without recovery: it stops at the first failing
config, after printing the end message with the current counters. -/

lemma runJobs_stop (b : Option String) (tf : String) (f : String → JobSpec)
    (c : String) (post : List String)
    (hc : (tryBody b tf (f c)).ok = false) :
    ∀ (pre : List String) (comp fail : Nat),
    (∀ p ∈ pre, (tryBody b tf (f p)).ok = true) →
    (runJobs false b tf f (pre ++ c :: post) comp fail).jobsCompleted =
      comp + pre.length + (tryBody b tf (f c)).completedInc ∧
    (runJobs false b tf f (pre ++ c :: post) comp fail).jobsFailed =
      fail + 1 ∧
    (runJobs false b tf f (pre ++ c :: post) comp fail).attempted =
      pre ++ [c] ∧
    (runJobs false b tf f (pre ++ c :: post) comp fail).summary =
      some (comp + pre.length + (tryBody b tf (f c)).completedInc, fail + 1) ∧
    (runJobs false b tf f (pre ++ c :: post) comp fail).raisedError = true := by
  intro pre
  induction pre with
  | nil =>
    intro comp fail _
    simp [runJobs, hc]
  | cons p rest ih =>
    intro comp fail h
    have hp : (tryBody b tf (f p)).ok = true := h p (by simp)
    have hinc := tryBody_ok_completedInc b tf (f p) hp
    have hrest := ih (comp + 1) fail (fun x hx => h x (by simp [hx]))
    simp only [List.cons_append, runJobs, hp, if_pos, hinc, List.append_eq]
    refine ⟨?_, hrest.2.1, by simp [hrest.2.2.1], ?_, hrest.2.2.2.2⟩
    · rw [hrest.1]
      simp only [List.length_cons]
      omega
    · rw [hrest.2.2.2.1]
      simp only [List.length_cons]
      congr 2
      omega

/-! The end message and the re-raised exception go together: the loop
prints the end message exactly on the path that re-raises. -/

lemma runJobs_summary_iff_raised (r : Bool) (b : Option String) (tf : String)
    (f : String → JobSpec) :
    ∀ (cs : List String) (comp fail : Nat),
    (runJobs r b tf f cs comp fail).summary.isSome =
      (runJobs r b tf f cs comp fail).raisedError := by
  intro cs
  induction cs with
  | nil => intro comp fail; simp [runJobs]
  | cons c rest ih =>
    intro comp fail
    cases hok : (tryBody b tf (f c)).ok with
    | true => simp only [runJobs, hok, if_pos]; exact ih _ _
    | false =>
      cases r with
      | true =>
        simp only [runJobs, hok, Bool.false_eq_true, if_false, if_pos]
        exact ih _ _
      | false => simp [runJobs, hok]

/-! Lemmas about the clearing trace. -/

lemma tryBody_clearCalls_target (b : Option String) (tf : String)
    (s : JobSpec) : ∀ x ∈ (tryBody b tf s).clearCalls, x = tf := by
  intro x hx
  cases hj : jobPhaseOk s <;> cases b <;>
    simp only [tryBody, hj, Bool.false_eq_true, if_false, if_pos] at hx
  · simp at hx
  · simp at hx
  · simp at hx
  · rcases hu : s.uploadOk <;> simp [hu] at hx
    exact hx

lemma runJobs_clearCalls_target (r : Bool) (b : Option String) (tf : String)
    (f : String → JobSpec) :
    ∀ (cs : List String) (comp fail : Nat),
    ∀ x ∈ (runJobs r b tf f cs comp fail).clearCalls, x = tf := by
  intro cs
  induction cs with
  | nil => intro comp fail x hx; simp [runJobs] at hx
  | cons c rest ih =>
    intro comp fail x hx
    cases hok : (tryBody b tf (f c)).ok with
    | true =>
      simp only [runJobs, hok, if_pos] at hx
      simp only [List.mem_append] at hx
      rcases hx with hx | hx
      · exact tryBody_clearCalls_target b tf (f c) x hx
      · exact ih _ _ x hx
    | false =>
      cases r with
      | true =>
        simp only [runJobs, hok, Bool.false_eq_true, if_false, if_pos] at hx
        simp only [List.mem_append] at hx
        rcases hx with hx | hx
        · exact tryBody_clearCalls_target b tf (f c) x hx
        · exact ih _ _ x hx
      | false =>
        simp only [runJobs, hok, Bool.false_eq_true, if_false] at hx
        exact tryBody_clearCalls_target b tf (f c) x hx

/-- When every call of a config succeeds and the bucket is set, the try body
uploads, logs the checkpoint directory, and clears the target folder. -/
lemma tryBody_full (bkt tf : String) (s : JobSpec)
    (hj : jobPhaseOk s = true) (hu : s.uploadOk = true)
    (hcl : s.clearOk = true) :
    tryBody (some bkt) tf s =
      { completedInc := 1, clearLogs := [checkpointDir s],
        clearCalls := [tf], ok := true } := by
  simp [tryBody, hj, hu, hcl]

lemma runJobs_clear_trace (r : Bool) (bkt tf : String)
    (f : String → JobSpec) :
    ∀ (cs : List String) (comp fail : Nat),
    (∀ c ∈ cs, jobPhaseOk (f c) = true ∧ (f c).uploadOk = true ∧
      (f c).clearOk = true) →
    (runJobs r (some bkt) tf f cs comp fail).clearCalls =
      List.replicate cs.length tf ∧
    (runJobs r (some bkt) tf f cs comp fail).clearLogs =
      cs.map (fun c => checkpointDir (f c)) := by
  intro cs
  induction cs with
  | nil => intro comp fail _; simp [runJobs]
  | cons c rest ih =>
    intro comp fail h
    have hc := h c (by simp)
    have hbody := tryBody_full bkt tf (f c) hc.1 hc.2.1 hc.2.2
    have hrest := ih (comp + 1) fail (fun x hx => h x (by simp [hx]))
    simp only [runJobs, hbody, if_pos]
    refine ⟨?_, ?_⟩
    · simp [hrest.1, List.replicate_succ]
    · simp [hrest.2]

/-! Lemmas about clear_target_folder: deleting every listed entry empties
the folder, for any folder whose direct entries carry distinct names. -/

lemma removeName_sublist (n : String) :
    ∀ es : List Entry, (removeName n es).Sublist es := by
  intro es
  induction es with
  | nil => simp [removeName]
  | cons e rest ih =>
    by_cases he : e.name = n
    · simp only [removeName, if_pos he]
      exact List.sublist_cons_self e rest
    · simp only [removeName, if_neg he]
      exact List.Sublist.cons₂ e ih

lemma mem_removeName_mem (n : String) (es : List Entry) (e : Entry)
    (h : e ∈ removeName n es) : e ∈ es :=
  (removeName_sublist n es).subset h

lemma removeName_names_nodup (n : String) (es : List Entry)
    (h : (es.map Entry.name).Nodup) :
    ((removeName n es).map Entry.name).Nodup :=
  ((removeName_sublist n es).map Entry.name).nodup h

lemma mem_removeName_ne (n : String) :
    ∀ es : List Entry, (es.map Entry.name).Nodup →
    ∀ e ∈ removeName n es, e.name ≠ n := by
  intro es
  induction es with
  | nil => intro _ e he; simp [removeName] at he
  | cons x rest ih =>
    intro hnd e he
    simp only [List.map_cons, List.nodup_cons] at hnd
    by_cases hx : x.name = n
    · simp only [removeName, if_pos hx] at he
      intro hen
      apply hnd.1
      rw [hx, ← hen]
      exact List.mem_map_of_mem Entry.name he
    · simp only [removeName, if_neg hx] at he
      rcases List.mem_cons.mp he with he1 | he1
      · rw [he1]; exact hx
      · exact ih hnd.2 e he1

lemma clearLoop_empty :
    ∀ (parts remaining : List Entry),
    (remaining.map Entry.name).Nodup →
    (∀ e ∈ remaining, e.name ∈ parts.map Entry.name) →
    clearLoop remaining parts = [] := by
  intro parts
  induction parts with
  | nil =>
    intro remaining _ hcov
    cases remaining with
    | nil => rfl
    | cons e rest => exact absurd (hcov e (by simp)) (by simp)
  | cons p ps ih =>
    intro remaining hnd hcov
    have hstep : clearLoop remaining (p :: ps) =
        clearLoop (removeName p.name remaining) ps := by
      cases hk : p.kind <;> simp [clearLoop, hk]
    rw [hstep]
    refine ih (removeName p.name remaining)
      (removeName_names_nodup p.name remaining hnd) ?_
    intro e he
    have hmem := mem_removeName_mem p.name remaining e he
    have hne := mem_removeName_ne p.name remaining hnd e he
    have := hcov e hmem
    simp only [List.map_cons, List.mem_cons] at this
    rcases this with h | h
    · exact absurd h hne
    · exact h

lemma clear_target_folder_empty (es : List Entry)
    (hnd : (es.map Entry.name).Nodup) : clear_target_folder es = [] :=
  clearLoop_empty es es hnd (fun _ he => List.mem_map_of_mem Entry.name he)

/-! Lemmas about os.path.basename of a joined path: for an entry name free
of separators, the base name of the folder-joined path is the entry name
again. -/

lemma foldl_basenameStep_no_slash :
    ∀ (l acc : List Char), '/' ∉ l → l.foldl basenameStep acc = acc ++ l := by
  intro l
  induction l with
  | nil => intro acc _; simp
  | cons c rest ih =>
    intro acc h
    simp only [List.mem_cons, not_or] at h
    simp only [List.foldl_cons, basenameStep]
    rw [if_neg (fun hc : c = '/' => h.1 hc.symm), ih (acc ++ [c]) h.2]
    simp

lemma foldl_basenameStep_last_slash :
    ∀ (l : List Char), l.getLast? = some '/' →
    ∀ acc, l.foldl basenameStep acc = [] := by
  intro l
  induction l with
  | nil => intro h; simp at h
  | cons c rest ih =>
    intro h acc
    cases rest with
    | nil =>
      simp only [List.getLast?_singleton, Option.some.injEq] at h
      simp [basenameStep, h]
    | cons d rest2 =>
      rw [List.getLast?_cons_cons] at h
      simp only [List.foldl_cons]
      exact ih h _

lemma headIs_slash_false (n : String) (h : '/' ∉ n.data) :
    headIs '/' n = false := by
  unfold headIs
  cases hd : n.data with
  | nil => rfl
  | cons a rest =>
    simp only [decide_eq_false_iff_not]
    intro ha
    exact h (by rw [hd, ha]; simp)

lemma lastIs_getLast (a : String) (h : lastIs '/' a = true) :
    a.data.getLast? = some '/' := by
  unfold lastIs at h
  cases hl : a.data.getLast? with
  | none => rw [hl] at h; simp at h
  | some x =>
    rw [hl] at h
    simp only [decide_eq_true_eq] at h
    rw [h]

lemma osPathBasename_no_slash (n : String) (h : '/' ∉ n.data) :
    osPathBasename n = n := by
  unfold osPathBasename
  rw [foldl_basenameStep_no_slash n.data [] h]
  rfl

lemma osPathBasename_append_last_slash (a n : String)
    (ha : a.data.getLast? = some '/') (h : '/' ∉ n.data) :
    osPathBasename (a ++ n) = n := by
  unfold osPathBasename
  rw [String.data_append, List.foldl_append,
    foldl_basenameStep_last_slash a.data ha [],
    foldl_basenameStep_no_slash n.data [] h]
  rfl

lemma osPathBasename_join (folder n : String) (h : '/' ∉ n.data) :
    osPathBasename (osPathJoin folder n) = n := by
  have hhead := headIs_slash_false n h
  unfold osPathJoin
  rw [hhead]
  simp only [Bool.false_eq_true, if_false]
  split
  · rename_i hcond
    by_cases hfe : folder = ""
    · subst hfe
      have h0 : ("" : String) ++ n = n := by
        apply String.ext
        rw [String.data_append]
        rfl
      rw [h0]
      exact osPathBasename_no_slash n h
    · have hlast : lastIs '/' folder = true := by
        simp only [Bool.or_eq_true, decide_eq_true_eq] at hcond
        rcases hcond with hl | hl
        · exact absurd hl hfe
        · exact hl
      exact osPathBasename_append_last_slash folder n
        (lastIs_getLast folder hlast) h
  · apply osPathBasename_append_last_slash (folder ++ "/") n ?_ h
    rw [String.data_append]
    have hs : ("/" : String).data = ['/'] := rfl
    rw [hs, List.getLast?_concat]

/-- A mixed oracle for concrete runs: the config named bad fails in
get_job, the config named ubad fails in the S3 upload, and every other
config succeeds throughout. -/
def demoMixed : String → JobSpec := fun s =>
  if s = "bad" then demoGetJobFail
  else if s = "ubad" then demoUploadFail
  else demoJob

/-- Claim C1, counterexample: an exception raised by the S3 upload after a
successful job IS absorbed by the per-job recovery handling.  With the
recover flag set and an oracle whose upload raises for every config, the
run raises nothing, attempts both configs, and counts two failures, so the
upload error neither propagated uncaught nor terminated the process. -/
theorem C1_counterexample :
    (runJobs true (some "bkt") "/workspace" (fun _ => demoUploadFail)
      ["a", "b"] 0 0).raisedError = false ∧
    (runJobs true (some "bkt") "/workspace" (fun _ => demoUploadFail)
      ["a", "b"] 0 0).attempted = ["a", "b"] ∧
    (runJobs true (some "bkt") "/workspace" (fun _ => demoUploadFail)
      ["a", "b"] 0 0).jobsFailed = 2 := by
  decide

/-- Claim C1, amended: exceptions raised by the upload or clearing step
after a successful job phase are caught by the same per-job except handler
as job errors: they increment the failed counter and propagate out of the
loop, terminating the process, exactly when the recover flag is not set;
with the recover flag set they are absorbed and the remaining configs are
attempted. -/
theorem C1_post_success_error_caught (bkt tf : String)
    (f : String → JobSpec) (c : String) (post : List String)
    (_hj : jobPhaseOk (f c) = true)
    (hfail : (tryBody (some bkt) tf (f c)).ok = false) :
    (runJobs false (some bkt) tf f (c :: post) 0 0).raisedError = true ∧
    (runJobs false (some bkt) tf f (c :: post) 0 0).jobsFailed = 1 ∧
    (runJobs true (some bkt) tf f (c :: post) 0 0).raisedError = false ∧
    (runJobs true (some bkt) tf f (c :: post) 0 0).attempted = c :: post := by
  have hstop := runJobs_stop (some bkt) tf f c post hfail [] 0 0 (by simp)
  simp only [List.nil_append] at hstop
  have hrec := runJobs_recover (some bkt) tf f (c :: post) 0 0
  exact ⟨hstop.2.2.2.2, hstop.2.1, hrec.2.1, hrec.1⟩

/-- Witness for the amended claim C1 at a concrete input: one config whose
upload raises, followed by one healthy config. -/
theorem C1_post_success_error_caught_witness :
    (runJobs false (some "bkt") "/workspace" demoMixed
      ["ubad", "later"] 0 0).raisedError = true ∧
    (runJobs false (some "bkt") "/workspace" demoMixed
      ["ubad", "later"] 0 0).jobsFailed = 1 ∧
    (runJobs true (some "bkt") "/workspace" demoMixed
      ["ubad", "later"] 0 0).raisedError = false ∧
    (runJobs true (some "bkt") "/workspace" demoMixed
      ["ubad", "later"] 0 0).attempted = ["ubad", "later"] :=
  C1_post_success_error_caught "bkt" "/workspace" demoMixed "ubad" ["later"]
    (by decide) (by decide)

/-- Claim C2: without the recover flag, the first config whose job raises
makes the run finish with one counted failure, the completed count of the
earlier configs, the end message printed with exactly those counters, the
exception re-raised, and no later config attempted. -/
theorem C2_fail_stops_run (b : Option String) (tf : String)
    (f : String → JobSpec) (pre : List String) (c : String)
    (post : List String)
    (hpre : ∀ p ∈ pre, (tryBody b tf (f p)).ok = true)
    (hc : jobPhaseOk (f c) = false) :
    (runJobs false b tf f (pre ++ c :: post) 0 0).jobsFailed = 1 ∧
    (runJobs false b tf f (pre ++ c :: post) 0 0).jobsCompleted =
      pre.length ∧
    (runJobs false b tf f (pre ++ c :: post) 0 0).summary =
      some (pre.length, 1) ∧
    (runJobs false b tf f (pre ++ c :: post) 0 0).raisedError = true ∧
    (runJobs false b tf f (pre ++ c :: post) 0 0).attempted = pre ++ [c] := by
  have hfail := jobPhase_not_ok b tf (f c) hc
  have hinc : (tryBody b tf (f c)).completedInc = 0 := by
    rw [tryBody_completedInc, if_neg]
    simp [hc]
  have hstop := runJobs_stop b tf f c post hfail pre 0 0 hpre
  rw [hinc] at hstop
  refine ⟨by rw [hstop.2.1], by rw [hstop.1]; omega, ?_,
    hstop.2.2.2.2, hstop.2.2.1⟩
  rw [hstop.2.2.2.1]
  simp

/-- Witness for claim C2 at a concrete input: a healthy config, then one
whose get_job raises, then a config that must not be attempted. -/
theorem C2_fail_stops_run_witness :
    (runJobs false none "/workspace" demoMixed
      (["good"] ++ "bad" :: ["later"]) 0 0).jobsFailed = 1 ∧
    (runJobs false none "/workspace" demoMixed
      (["good"] ++ "bad" :: ["later"]) 0 0).jobsCompleted =
      (["good"] : List String).length ∧
    (runJobs false none "/workspace" demoMixed
      (["good"] ++ "bad" :: ["later"]) 0 0).summary =
      some ((["good"] : List String).length, 1) ∧
    (runJobs false none "/workspace" demoMixed
      (["good"] ++ "bad" :: ["later"]) 0 0).raisedError = true ∧
    (runJobs false none "/workspace" demoMixed
      (["good"] ++ "bad" :: ["later"]) 0 0).attempted = ["good"] ++ ["bad"] :=
  C2_fail_stops_run none "/workspace" demoMixed ["good"] "bad" ["later"]
    (by decide) (by decide)

/-- Claim C3: with the recover flag, a config whose try body raises at any
position does not stop the loop: every config of the list is attempted, no
exception propagates, and the final counters count exactly the attempted
configs whose job phase succeeded and those whose try body raised. -/
theorem C3_recover_continues (b : Option String) (tf : String)
    (f : String → JobSpec) (pre : List String) (c : String)
    (post : List String)
    (_hc : (tryBody b tf (f c)).ok = false) :
    (runJobs true b tf f (pre ++ c :: post) 0 0).attempted =
      pre ++ c :: post ∧
    (runJobs true b tf f (pre ++ c :: post) 0 0).raisedError = false ∧
    (runJobs true b tf f (pre ++ c :: post) 0 0).jobsCompleted =
      ((pre ++ c :: post).filter (fun x => jobPhaseOk (f x))).length ∧
    (runJobs true b tf f (pre ++ c :: post) 0 0).jobsFailed =
      ((pre ++ c :: post).filter (fun x => !(tryBody b tf (f x)).ok)).length := by
  have h := runJobs_recover b tf f (pre ++ c :: post) 0 0
  refine ⟨h.1, h.2.1, ?_, ?_⟩
  · rw [h.2.2.2.1]; omega
  · rw [h.2.2.2.2]; omega

/-- Witness for claim C3 at a concrete input: a failing config between two
healthy ones, run in recovery mode. -/
theorem C3_recover_continues_witness :
    (runJobs true none "/workspace" demoMixed
      (["good"] ++ "bad" :: ["later"]) 0 0).attempted =
      ["good"] ++ "bad" :: ["later"] ∧
    (runJobs true none "/workspace" demoMixed
      (["good"] ++ "bad" :: ["later"]) 0 0).raisedError = false ∧
    (runJobs true none "/workspace" demoMixed
      (["good"] ++ "bad" :: ["later"]) 0 0).jobsCompleted =
      (((["good"] ++ "bad" :: ["later"]) : List String).filter
        (fun x => jobPhaseOk (demoMixed x))).length ∧
    (runJobs true none "/workspace" demoMixed
      (["good"] ++ "bad" :: ["later"]) 0 0).jobsFailed =
      (((["good"] ++ "bad" :: ["later"]) : List String).filter
        (fun x => !(tryBody none "/workspace" (demoMixed x)).ok)).length :=
  C3_recover_continues none "/workspace" demoMixed ["good"] "bad" ["later"]
    (by decide)

/-- Claim C4: a single config can increment both counters in one pass.
When the job phase succeeds, the bucket is set, and the post-success upload
or clearing raises, the completed counter was already incremented before
the raise and the failed counter is incremented by the handler, so the two
counters sum to more than the number of configs processed. -/
theorem C4_both_counters (bkt tf : String) (f : String → JobSpec)
    (c : String) (recover : Bool)
    (hj : jobPhaseOk (f c) = true)
    (hfail : (tryBody (some bkt) tf (f c)).ok = false) :
    (runJobs recover (some bkt) tf f [c] 0 0).jobsCompleted = 1 ∧
    (runJobs recover (some bkt) tf f [c] 0 0).jobsFailed = 1 ∧
    ([c] : List String).length <
      (runJobs recover (some bkt) tf f [c] 0 0).jobsCompleted +
      (runJobs recover (some bkt) tf f [c] 0 0).jobsFailed := by
  have hinc : (tryBody (some bkt) tf (f c)).completedInc = 1 := by
    rw [tryBody_completedInc, if_pos hj]
  cases recover with
  | false =>
    have hstop := runJobs_stop (some bkt) tf f c [] hfail [] 0 0 (by simp)
    simp only [List.nil_append] at hstop
    rw [hinc] at hstop
    refine ⟨by rw [hstop.1]; simp, by rw [hstop.2.1], ?_⟩
    rw [hstop.1, hstop.2.1]
    simp
  | true =>
    have hrec := runJobs_recover (some bkt) tf f [c] 0 0
    have hcomp : (runJobs true (some bkt) tf f [c] 0 0).jobsCompleted = 1 := by
      rw [hrec.2.2.2.1]
      simp [List.filter_cons, hj]
    have hfailn : (runJobs true (some bkt) tf f [c] 0 0).jobsFailed = 1 := by
      rw [hrec.2.2.2.2]
      simp [List.filter_cons, hfail]
    refine ⟨hcomp, hfailn, ?_⟩
    rw [hcomp, hfailn]
    simp

/-- Witness for claim C4 at a concrete input: one config whose upload
raises after a successful job phase. -/
theorem C4_both_counters_witness :
    (runJobs false (some "bkt") "/workspace" demoMixed ["ubad"] 0 0
      ).jobsCompleted = 1 ∧
    (runJobs false (some "bkt") "/workspace" demoMixed ["ubad"] 0 0
      ).jobsFailed = 1 ∧
    (["ubad"] : List String).length <
      (runJobs false (some "bkt") "/workspace" demoMixed ["ubad"] 0 0
        ).jobsCompleted +
      (runJobs false (some "bkt") "/workspace" demoMixed ["ubad"] 0 0
        ).jobsFailed :=
  C4_both_counters "bkt" "/workspace" demoMixed "ubad" false
    (by decide) (by decide)

/-- Claim C5: when the bucket is set, the folder actually passed to
clear_target_folder is always the CLI target-folder argument, even though
the preceding log line names the per-job checkpoint directory; and with
every job fully succeeding the target folder is cleared once per job, not
once per run. -/
theorem C5_clears_target_folder (r : Bool) (bkt tf : String)
    (f : String → JobSpec) (cs : List String)
    (h : ∀ c ∈ cs, jobPhaseOk (f c) = true ∧ (f c).uploadOk = true ∧
      (f c).clearOk = true) :
    (∀ x ∈ (runJobs r (some bkt) tf f cs 0 0).clearCalls, x = tf) ∧
    (runJobs r (some bkt) tf f cs 0 0).clearCalls =
      List.replicate cs.length tf ∧
    (runJobs r (some bkt) tf f cs 0 0).clearLogs =
      cs.map (fun c => checkpointDir (f c)) := by
  have ht := runJobs_clear_trace r bkt tf f cs 0 0 h
  exact ⟨runJobs_clearCalls_target r (some bkt) tf f cs 0 0, ht.1, ht.2⟩

/-- Witness for claim C5 at a concrete input: two healthy jobs with the
default target folder; the cleared folder is the workspace folder both
times while the log lines name the checkpoint directory. -/
theorem C5_clears_target_folder_witness :
    (∀ x ∈ (runJobs false (some "bkt") defaultTargetFolder
      (fun _ => demoJob) ["a", "b"] 0 0).clearCalls, x = defaultTargetFolder) ∧
    (runJobs false (some "bkt") defaultTargetFolder
      (fun _ => demoJob) ["a", "b"] 0 0).clearCalls =
      List.replicate (["a", "b"] : List String).length defaultTargetFolder ∧
    (runJobs false (some "bkt") defaultTargetFolder
      (fun _ => demoJob) ["a", "b"] 0 0).clearLogs =
      (["a", "b"] : List String).map (fun _ => checkpointDir demoJob) :=
  C5_clears_target_folder false "bkt" defaultTargetFolder
    (fun _ => demoJob) ["a", "b"] (by decide)

/-- Claim C6, counterexample: a run in which every job succeeds prints no
final summary.  With one healthy config the run ends with one completed
job, zero failures, and no print_end_message call. -/
theorem C6_counterexample :
    (runJobs false (some "bkt") "/workspace" (fun _ => demoJob)
      ["a"] 0 0).jobsCompleted = 1 ∧
    (runJobs false (some "bkt") "/workspace" (fun _ => demoJob)
      ["a"] 0 0).jobsFailed = 0 ∧
    (runJobs false (some "bkt") "/workspace" (fun _ => demoJob)
      ["a"] 0 0).summary = none := by
  decide

/-- Claim C6, amended: the driver prints per-job progress for every
attempted config, but the final summary is printed exactly on the runs
that re-raise an exception, that is when some job fails and the recover
flag is not set; in particular an all-success run, and any run in recovery
mode, prints no final summary. -/
theorem C6_summary_only_on_failure (r : Bool) (b : Option String)
    (tf : String) (f : String → JobSpec) (cs : List String) :
    ((runJobs r b tf f cs 0 0).summary.isSome =
      (runJobs r b tf f cs 0 0).raisedError) ∧
    ((∀ c ∈ cs, (tryBody b tf (f c)).ok = true) →
      (runJobs r b tf f cs 0 0).summary = none ∧
      (runJobs r b tf f cs 0 0).attempted = cs) ∧
    (runJobs true b tf f cs 0 0).summary = none := by
  refine ⟨runJobs_summary_iff_raised r b tf f cs 0 0, ?_, ?_⟩
  · intro h
    have := runJobs_all_ok r b tf f cs 0 0 h
    exact ⟨this.2.2.2.1, this.2.2.1⟩
  · exact (runJobs_recover b tf f cs 0 0).2.2.1

/-- Witness for the amended claim C6 at a concrete input: an all-success
run with every hypothesis discharged. -/
theorem C6_summary_only_on_failure_witness :
    ((runJobs false (some "bkt") "/workspace" (fun _ => demoJob)
      ["a", "b"] 0 0).summary.isSome =
      (runJobs false (some "bkt") "/workspace" (fun _ => demoJob)
        ["a", "b"] 0 0).raisedError) ∧
    ((runJobs false (some "bkt") "/workspace" (fun _ => demoJob)
      ["a", "b"] 0 0).summary = none ∧
      (runJobs false (some "bkt") "/workspace" (fun _ => demoJob)
        ["a", "b"] 0 0).attempted = ["a", "b"]) ∧
    (runJobs true (some "bkt") "/workspace" (fun _ => demoJob)
      ["a", "b"] 0 0).summary = none := by
  have h := C6_summary_only_on_failure false (some "bkt") "/workspace"
    (fun _ => demoJob) ["a", "b"]
  exact ⟨h.1, h.2.1 (by decide), h.2.2⟩

/-- Claim C7, counterexample: a hidden file whose name ends with the
configured suffix is not selected, because the glob pattern star-plus-
suffix never matches names starting with a dot; so upload_to_s3 does not
select exactly the files whose names end with the suffix. -/
theorem C7_counterexample :
    strEnds ".safetensors" ".model.safetensors" = true ∧
    upload_to_s3 "user" "job" "/ckpt" "bkt" ".safetensors"
      [".model.safetensors"] = [] := by
  decide

/-- Claim C7, amended: for a literal suffix pattern, upload_to_s3 selects
exactly the non-hidden entries of the folder, names not starting with a
dot, that end with the suffix, and uploads each selected file from its
folder-joined path to the given bucket under the key obtained by joining
USER_ID/JOB_ID/lora_checkpoints with the file's base name, which for a
separator-free entry name is the entry name itself. -/
theorem C7_upload_selection (userId jobId folderPath bucketName
    suffix : String) (entries : List String) :
    (∀ u ∈ upload_to_s3 userId jobId folderPath bucketName suffix entries,
      ∃ n ∈ entries, headIs '.' n = false ∧ strEnds suffix n = true ∧
        u.localPath = osPathJoin folderPath n ∧ u.bucket = bucketName ∧
        ('/' ∉ n.data →
          u.key = osPathJoin (userId ++ "/" ++ jobId ++ "/lora_checkpoints")
            n)) ∧
    (∀ n ∈ entries, headIs '.' n = false → strEnds suffix n = true →
      '/' ∉ n.data →
      Upload.mk (osPathJoin folderPath n) bucketName
        (osPathJoin (userId ++ "/" ++ jobId ++ "/lora_checkpoints") n) ∈
        upload_to_s3 userId jobId folderPath bucketName suffix entries) := by
  constructor
  · intro u hu
    simp only [upload_to_s3, List.map_map, List.mem_map, List.mem_filter,
      globStarSuffix, Bool.and_eq_true, Bool.not_eq_true'] at hu
    obtain ⟨n, ⟨hn, hhid, hsuf⟩, hu⟩ := hu
    refine ⟨n, hn, hhid, hsuf, ?_, ?_, ?_⟩
    · rw [← hu]; rfl
    · rw [← hu]; rfl
    · intro hns
      rw [← hu]
      simp only [Function.comp]
      rw [osPathBasename_join folderPath n hns]
  · intro n hn hhid hsuf hns
    simp only [upload_to_s3, List.map_map, List.mem_map, List.mem_filter,
      globStarSuffix, Bool.and_eq_true, Bool.not_eq_true']
    refine ⟨n, ⟨hn, hhid, hsuf⟩, ?_⟩
    simp only [Function.comp]
    rw [osPathBasename_join folderPath n hns]

/-- Witness for the amended claim C7 at a concrete input: a folder with a
matching and a non-matching entry; the matching one is uploaded under the
composed key. -/
theorem C7_upload_selection_witness :
    Upload.mk (osPathJoin "/ckpt" "a.safetensors") "bkt"
      (osPathJoin ("user" ++ "/" ++ "job" ++ "/lora_checkpoints")
        "a.safetensors") ∈
      upload_to_s3 "user" "job" "/ckpt" "bkt" ".safetensors"
        ["a.safetensors", "b.txt"] :=
  (C7_upload_selection "user" "job" "/ckpt" "bkt" ".safetensors"
    ["a.safetensors", "b.txt"]).2 "a.safetensors"
    (by decide) (by decide) (by decide) (by decide)

/-- Claim C8: on a folder whose direct entries have distinct names and
contain both a file and a subdirectory, clear_target_folder removes every
direct entry, files via os.remove and directories via shutil.rmtree,
leaving the folder itself in place with zero entries. -/
theorem C8_clear_empties (es : List Entry)
    (hnd : (es.map Entry.name).Nodup)
    (_hf : ∃ e ∈ es, e.kind = EntryKind.file)
    (_hd : ∃ e ∈ es, e.kind = EntryKind.dir) :
    clearFolderState es = some [] := by
  unfold clearFolderState
  rw [clear_target_folder_empty es hnd]

/-- Witness for claim C8 at a concrete input: a folder holding one file and
one subdirectory. -/
theorem C8_clear_empties_witness :
    clearFolderState [Entry.mk "a.txt" EntryKind.file,
      Entry.mk "ckpt" EntryKind.dir] = some [] :=
  C8_clear_empties [Entry.mk "a.txt" EntryKind.file,
      Entry.mk "ckpt" EntryKind.dir]
    (by decide) (by decide) (by decide)

/-- Claim C9: when the shutdown flag is set but the pod identifier
environment variable is absent, the shutdown step issues no external
command, prints the warning instead, sleeps for no time, and returns
normally rather than failing. -/
theorem C9_shutdown_skipped (t : Nat) :
    shutdownStep true t none =
      { commands := [], warned := true, slept := none } := rfl

/-- Witness for claim C9 at the default shutdown delay of 120 seconds. -/
theorem C9_shutdown_skipped_witness :
    shutdownStep true 120 none =
      { commands := [], warned := true, slept := none } :=
  C9_shutdown_skipped 120

/-- Claim C10: when every config's try body, job phase and any post-success
upload and clearing, succeeds, the loop finishes with the completed counter
equal to the number of configs and the failed counter equal to zero. -/
theorem C10_all_success (r : Bool) (b : Option String) (tf : String)
    (f : String → JobSpec) (cs : List String)
    (h : ∀ c ∈ cs, (tryBody b tf (f c)).ok = true) :
    (runJobs r b tf f cs 0 0).jobsCompleted = cs.length ∧
    (runJobs r b tf f cs 0 0).jobsFailed = 0 := by
  have ha := runJobs_all_ok r b tf f cs 0 0 h
  exact ⟨by rw [ha.1]; omega, ha.2.1⟩

/-- Witness for claim C10 at a concrete input: three healthy configs with
the bucket set. -/
theorem C10_all_success_witness :
    (runJobs false (some "bkt") "/workspace" (fun _ => demoJob)
      ["a", "b", "c"] 0 0).jobsCompleted =
      (["a", "b", "c"] : List String).length ∧
    (runJobs false (some "bkt") "/workspace" (fun _ => demoJob)
      ["a", "b", "c"] 0 0).jobsFailed = 0 :=
  C10_all_success false (some "bkt") "/workspace" (fun _ => demoJob)
    ["a", "b", "c"] (by decide)

end RunPy
